import Mathlib

/-!
Shallow embedding of the mimodd-lib sequence-read modules
(`seqtransform.py`, `fastq.py`, `seqreads.py`, `pysaminter.py`, `fasta.py`)
and proofs about the embedded operations.

Strings are modelled as `List Char` (Python `str`) and byte strings as
`List Nat` (Python `bytes`).  Python exceptions are modelled with explicit
error sums.  Generator-based iteration is modelled as functions producing
the list of yielded elements together with an optional terminal error.
-/

namespace Mimodd

/-- Python `str.isspace` characters relevant to `strip`/`rstrip`/`split(None)`
for the ASCII inputs handled by this library. -/

def isPySpace (c : Char) : Bool :=
  c = ' ' ∨ c = '\t' ∨ c = '\n' ∨ c = '\x0b' ∨ c = '\x0c' ∨ c = '\r'

/-- Python `s.rstrip()` on a text line: drop trailing whitespace. -/

def pyRstrip (l : List Char) : List Char :=
  (l.reverse.dropWhile isPySpace).reverse

/-- Python `s.strip()`: drop leading and trailing whitespace. -/

def pyStrip (l : List Char) : List Char :=
  pyRstrip (l.dropWhile isPySpace)

/-- Python `str.lower` on a single ASCII character. -/

def pyLowerChar (c : Char) : Char :=
  if 'A' ≤ c ∧ c ≤ 'Z' then Char.ofNat (c.toNat + 32) else c

/-- Python `str.upper` on a single ASCII character. -/

def pyUpperChar (c : Char) : Char :=
  if 'a' ≤ c ∧ c ≤ 'z' then Char.ofNat (c.toNat - 32) else c

/-- Python `str.upper` on a text line. -/

def pyUpperStr (l : List Char) : List Char := l.map pyUpperChar

/-- `seqtransform.IUPAC_DNA = 'AGRMHBSNWVDKYCT'`. -/

def IUPAC_DNA : List Char :=
  ['A', 'G', 'R', 'M', 'H', 'B', 'S', 'N', 'W', 'V', 'D', 'K', 'Y', 'C', 'T']

/-- `seqtransform.IUPAC_RNA = 'AGRMHBSNWVDKYCU'`. -/

def IUPAC_RNA : List Char :=
  ['A', 'G', 'R', 'M', 'H', 'B', 'S', 'N', 'W', 'V', 'D', 'K', 'Y', 'C', 'U']

/-- The translation table built by `bytes.maketrans(alpha + alpha.lower(),
alpha[::-1] + alpha[::-1].lower())`, as an association list from source
character to image character; characters outside the table translate to
themselves (`bytes.maketrans` leaves all other byte values unchanged). -/

def mkTranslationTable (alpha : List Char) : List (Char × Char) :=
  List.zip (alpha ++ alpha.map pyLowerChar)
    (alpha.reverse ++ (alpha.map pyLowerChar).reverse)

/-- `seqtransform.DNA_TRANSLATION_TABLE`. -/

def DNA_TRANSLATION_TABLE : List (Char × Char) := mkTranslationTable IUPAC_DNA

/-- `seqtransform.RNA_TRANSLATION_TABLE`. -/

def RNA_TRANSLATION_TABLE : List (Char × Char) := mkTranslationTable IUPAC_RNA

/-- Application of a translation table to one character
(`str.translate` / `bytes.translate` behaviour: unmapped characters pass
through unchanged). -/

def translateChar (table : List (Char × Char)) (c : Char) : Char :=
  match table.lookup c with
  | some d => d
  | none => c

/-- `seqtransform.reverse`. -/

def str_reverse (seq : List Char) : List Char := seq.reverse

/-- `seqtransform.complement`. -/

def complement (seq : List Char) (is_dna : Bool) : List Char :=
  if is_dna then seq.map (translateChar DNA_TRANSLATION_TABLE)
  else seq.map (translateChar RNA_TRANSLATION_TABLE)

/-- `seqtransform.reverse_complement`. -/

def reverse_complement (seq : List Char) (is_dna : Bool) : List Char :=
  if is_dna then seq.reverse.map (translateChar DNA_TRANSLATION_TABLE)
  else seq.reverse.map (translateChar RNA_TRANSLATION_TABLE)

/-- The IUPAC DNA alphabet in both cases (the domain of the DNA table). -/

def dnaAlphabet : List Char := IUPAC_DNA ++ IUPAC_DNA.map pyLowerChar

/-- The IUPAC RNA alphabet in both cases (the domain of the RNA table). -/

def rnaAlphabet : List Char := IUPAC_RNA ++ IUPAC_RNA.map pyLowerChar

/-! FASTQ parsing: embedding of `FastqReader._read_fastq_records` (identical
in `seqreads.py` and `fastq.py`), specialised to the text (`str`) branch of
the source-type detection.  The generator's control flow is reproduced with
a fuel parameter for the outer `while True` loop, because the blank-title
`continue` branch re-enters the loop without consuming input.  All Python
exceptions raised by the parser are represented explicitly. -/

/-- Python exceptions the fastq record generator can raise. -/

inductive FqError where
  /-- `IndexError` from subscripting an empty line with `[0]`. -/
  | indexError : FqError
  /-- `ValueError('Invalid format: Title line not starting with @', ...)`. -/
  | titleNotAt : FqError
  /-- `ValueError('Invalid format: Record without sequence', ...)`. -/
  | noSequence : FqError
  /-- `ValueError('Invalid format: Last record is incomplete', ...)`. -/
  | incomplete : FqError
  /-- `ValueError('Invalid format: Record with inconsistent lengths of
  sequence and quality score', ...)`. -/
  | lengthMismatch : FqError
deriving DecidableEq, Repr

/-- One parsed fastq record `(identifier, sequence, quality scores)`. -/

abbrev FqRec := List Char × List Char × List Char

/-- Outcome of running the fastq record generator to exhaustion: the records
yielded so far together with either clean termination, a raised exception, or
non-termination within the given fuel. -/

inductive FqOut where
  | done : List FqRec → FqOut
  | err : FqError → List FqRec → FqOut
  | spin : FqOut
deriving DecidableEq, Repr

/-- The sequence-accumulation loop of `_read_fastq_records`: consume lines
until one starts with `+`; `StopIteration` here means an incomplete record.
Returns the accumulated (rstripped, concatenated) sequence and the remaining
lines. -/

def seqAccum : List (List Char) → Except FqError (List Char × List (List Char))
  | [] => .error .incomplete
  | line :: rest =>
    match line with
    | [] => .error .indexError
    | c :: _ =>
      if c = '+' then .ok ([], rest)
      else
        match seqAccum rest with
        | .error e => .error e
        | .ok (s, r) => .ok (pyRstrip line ++ s, r)

/-- The quality-accumulation loop of `_read_fastq_records`: consume
(rstripped) lines while the accumulated quality length is below the sequence
length; `StopIteration` here means an incomplete record.  Returns the joined
quality string and the remaining lines. -/

def qualAccum (seqlen : Nat) (quallen : Nat) :
    List (List Char) → Except FqError (List Char × List (List Char))
  | [] => if quallen < seqlen then .error .incomplete else .ok ([], [])
  | line :: rest =>
    if quallen < seqlen then
      match qualAccum seqlen (quallen + (pyRstrip line).length) rest with
      | .error e => .error e
      | .ok (q, r) => .ok (pyRstrip line ++ q, r)
    else .ok ([], line :: rest)

/-- The outer `while True` loop of `_read_fastq_records`, with `title` the
line currently held in the `title` variable, `rest` the lines not yet drawn
from `src` and `acc` the records yielded so far (in reverse).  `fuel` bounds
the number of outer-loop iterations; the blank-title `continue` branch
re-enters the loop without drawing a new line from `src`. -/

def fqLoop : Nat → List Char → List (List Char) → List FqRec → FqOut
  | 0, _, _, _ => .spin
  | fuel + 1, title, rest, acc =>
    match title with
    | [] => .err .indexError acc.reverse
    | t0 :: ttail =>
      if t0 = '@' then
        let tid := pyRstrip ttail
        match seqAccum rest with
        | .error e => .err e acc.reverse
        | .ok (seq, rest1) =>
          if seq.length = 0 then .err .noSequence acc.reverse
          else
            match qualAccum seq.length 0 rest1 with
            | .error e => .err e acc.reverse
            | .ok (qual, rest2) =>
              if seq.length < qual.length then .err .lengthMismatch acc.reverse
              else
                match rest2 with
                | [] => .done (acc.reverse ++ [(tid, seq, qual)])
                | title2 :: rest3 =>
                  fqLoop fuel title2 rest3 ((tid, seq, qual) :: acc)
      else
        if pyRstrip title = [] then fqLoop fuel title rest acc
        else .err .titleNotAt acc.reverse

/-- `FastqReader._read_fastq_records` run on a finite list of text lines:
an empty source yields no records; otherwise the first line is drawn as the
initial title and the outer loop is entered. -/

def read_fastq_records (fuel : Nat) (src : List (List Char)) : FqOut :=
  match src with
  | [] => .done []
  | title :: rest => fqLoop fuel title rest []

/-- The four-line fastq stream `"@r1" / "ACGT" / "+" / "!!!!"`. -/

def fqGoodInput : List (List Char) :=
  [['@', 'r', '1'], ['A', 'C', 'G', 'T'], ['+'], ['!', '!', '!', '!']]

/-- The same stream with the quality line replaced by `"!!!"`. -/

def fqShortQualInput : List (List Char) :=
  [['@', 'r', '1'], ['A', 'C', 'G', 'T'], ['+'], ['!', '!', '!']]

/-- A fastq stream with a single blank line between two well-formed
records. -/

def fqBlankBetweenInput : List (List Char) :=
  [['@', 'r', '1'], ['A', 'C', 'G', 'T'], ['+'], ['!', '!', '!', '!'],
   [' '],
   ['@', 'r', '2'], ['A', 'C'], ['+'], ['!', '!']]

/-! Facade read variants (`fastq.SimpleSeqRead` over an internal
`(title, sequence, quality)` triple, and `pysaminter.PysamRead` over an
external alignment object exposing `qname`/`seq`/`qual`).  Both are modelled
by their observable `(title, sequence, quality)` state, on which `reverse`,
`complement` and `reverse_complement` act. -/

/-- The `(full_title, sequence, quality)` state of a facade read. -/

structure SRead where
  title : List Char
  seq : List Char
  qual : List Char
deriving DecidableEq, Repr

/-- `fastq.SimpleSeqRead.reverse`: reverse sequence and quality. -/

def simpleReverse (r : SRead) : SRead :=
  ⟨r.title, r.seq.reverse, r.qual.reverse⟩

/-- `fastq.SimpleSeqRead.complement`: complement the sequence in place. -/

def simpleComplement (is_dna : Bool) (r : SRead) : SRead :=
  ⟨r.title, complement r.seq is_dna, r.qual⟩

/-- `fastq.SimpleSeqRead.reverse_complement`: reverse-complement the sequence
via `seqtransform.reverse_complement` and reverse the quality. -/

def simpleReverseComplement (is_dna : Bool) (r : SRead) : SRead :=
  ⟨r.title, reverse_complement r.seq is_dna, r.qual.reverse⟩

/-- `pysaminter.PysamRead.reverse`: reverse sequence and quality. -/

def pysamReverse (r : SRead) : SRead :=
  ⟨r.title, r.seq.reverse, r.qual.reverse⟩

/-- `pysaminter.PysamRead.complement`: complement the sequence in place. -/

def pysamComplement (is_dna : Bool) (r : SRead) : SRead :=
  ⟨r.title, complement r.seq is_dna, r.qual⟩

/-- `pysaminter.PysamRead.reverse_complement`, exactly as written in the
source: the new sequence is `seqtransform.complement(self.read.seq, ...)`
(the sequence is NOT reversed), while the quality is reversed. -/

def pysamReverseComplement (is_dna : Bool) (r : SRead) : SRead :=
  ⟨r.title, complement r.seq is_dna, r.qual.reverse⟩

/-- `seqreads.SeqReadFacade.reverse_complement`: the base-class composition
`self.reverse(); self.complement()` applied to any variant's operations. -/

def facadeReverseComplement (rev : SRead → SRead) (comp : SRead → SRead)
    (r : SRead) : SRead :=
  comp (rev r)

/-! Read grouping: embedding of `seqreads.group_reads_by_qname`.  Reads are
modelled at the facade capability interface used by the function: an
`identifier`, a `flag` bitmask, an optional read-group id (`rg_id`) and an
optional sequence (`None` or a string).  The Python `while read1:` truthiness
test calls `SeqReadFacade.__len__`, i.e. `len(self.sequence)`, which raises
`TypeError` when the sequence is `None`.  A generator run is modelled as the
list of yielded groups plus an optional terminal error. -/

/-- A read as seen through the facade capability interface. -/

structure GRead where
  identifier : List Char
  flag : Nat
  rg_id : Option (List Char)
  seq : Option (List Char)
deriving DecidableEq, Repr

/-- One yielded group: `(read group id, [reads...])`. -/

abbrev Grp := Option (List Char) × List GRead

/-- Errors the grouping generator can raise: `TypeError` from
`len(None)` in the facade truthiness test. -/

inductive GrpErr where
  | typeError : GrpErr
deriving DecidableEq, Repr

/-- The inner accumulation loop of `group_reads_by_qname`: starting from an
anchor's read-group id and identifier, consume reads while both match,
skipping secondary/supplementary reads (mask 0x900); stop at the first
mismatching read (returned as the next anchor candidate) or at end of input.
Returns (accumulated reads, next anchor candidate, remaining stream). -/

def collectGroup (rg : Option (List Char)) (rid : List Char) :
    List GRead → List GRead × Option GRead × List GRead
  | [] => ([], none, [])
  | r :: rest =>
    if rid ≠ r.identifier then ([], some r, rest)
    else if rg ≠ r.rg_id then ([], some r, rest)
    else if r.flag &&& 0x900 ≠ 0 then collectGroup rg rid rest
    else
      let c := collectGroup rg rid rest
      (r :: c.1, c.2.1, c.2.2)

/-- The outer loop of `group_reads_by_qname`, with `read1` the current value
of the `read1` variable (`none` once `readn` was set to `None`) and `rest`
the reads not yet drawn from `src`. -/

def groupLoop : Option GRead → List GRead → List Grp × Option GrpErr
  | none, _ => ([], none)
  | some r1, rest =>
    if r1.seq.isNone then ([], some .typeError)
    else if (r1.seq.getD []).length = 0 then ([], none)
    else if r1.flag &&& 0x900 ≠ 0 then
      groupLoop rest.head? rest.tail
    else
      let c := collectGroup r1.rg_id r1.identifier rest
      let res := groupLoop c.2.1 c.2.2
      ((r1.rg_id, r1 :: c.1) :: res.1, res.2)
termination_by r1 rest => rest.length + (if r1.isSome then 1 else 0)
decreasing_by
  all_goals simp_wf
  all_goals first
    | (cases rest <;> simp <;> omega)
    | (have hbound : ∀ l : List GRead,
          (collectGroup r1.rg_id r1.identifier l).2.2.length
              + (if (collectGroup r1.rg_id r1.identifier l).2.1.isSome
                  then 1 else 0)
            ≤ l.length := by
        intro l
        induction l with
        | nil => simp [collectGroup]
        | cons r rest2 ih =>
          simp only [collectGroup]
          by_cases h1 : r1.identifier ≠ r.identifier
          · simp [h1]
          · simp only [if_neg h1]
            by_cases h2 : r1.rg_id ≠ r.rg_id
            · simp [h2]
            · simp only [if_neg h2]
              by_cases h3 : r.flag &&& 0x900 ≠ 0
              · simp only [if_pos h3, List.length_cons]
                omega
              · simp only [if_neg h3, List.length_cons]
                omega
       have h := hbound rest
       cases hc : (collectGroup r1.rg_id r1.identifier rest).2.1 <;>
         simp only [hc, Option.isSome_some, Option.isSome_none, if_true,
           if_false, Bool.false_eq_true] at h ⊢ <;> omega)

/-- `seqreads.group_reads_by_qname` on a finite read stream. -/

def group_reads_by_qname (src : List GRead) : List Grp × Option GrpErr :=
  match src with
  | [] => ([], none)
  | r :: rest => groupLoop (some r) rest

/-- The claim's three concrete reads: `(id="a", flag=0, rg="X")`,
`(id="a", flag=0x100, rg="X")` and `(id="a", flag=0, rg="Y")`, each carrying
a non-empty sequence. -/

def c5Read0 : GRead := ⟨['a'], 0, some ['X'], some ['A', 'C']⟩

/-- Second claim read, secondary flag 0x100. -/

def c5Read1 : GRead := ⟨['a'], 0x100, some ['X'], some ['A', 'C']⟩

/-- Third claim read, read group `"Y"`. -/

def c5Read2 : GRead := ⟨['a'], 0, some ['Y'], some ['A', 'C']⟩

/-! Read splitting: embedding of `seqreads.ReadSplitter.__iter__`.  The
method wraps `group_reads_by_qname`; its state is the declared read-group
set `self.rg_set` (`None` when no header was given, possibly the empty set,
possibly reseeded from the first group) and `self.default_rg`.  The source
text of `__iter__` references three undefined names — `rg_set` (instead of
`self.rg_set`), `FormatParseError` (never imported or defined in the module)
and `this_rg_id` (instead of `rg_id`) — so the corresponding paths raise
`NameError` when Python evaluates them; these are modelled explicitly. -/

/-- Errors `ReadSplitter.__iter__` can raise. -/

inductive SpErr where
  /-- `RuntimeError('No reads in file. Aborting.')`. -/
  | noReads : SpErr
  /-- `NameError` from the bare name `rg_set` in `elif rg_id not in rg_set`. -/
  | nameErrRgSet : SpErr
  /-- `NameError` from the undefined name `FormatParseError` (evaluated
  before its arguments, so it also shadows the undefined `this_rg_id`). -/
  | nameErrFormatParseError : SpErr
deriving DecidableEq, Repr

/-- Python `rg_id or self.default_rg`: `None` and the empty string are falsy
and are replaced by the default. -/

def pyOrRg (rg : Option (List Char)) (d : Option (List Char)) :
    Option (List Char) :=
  match rg with
  | none => d
  | some x => if x = [] then d else some x

/-- Python truthiness of `self.rg_set`: `None` and the empty set are falsy. -/

def rgSetTruthy (rg_set : Option (List (Option (List Char)))) : Bool :=
  match rg_set with
  | none => false
  | some l => ¬ l = []

/-- The `for rg_id, grouped_reads in it:` loop of `ReadSplitter.__iter__`,
run over the remaining groups with the (by now fixed) read-group set. -/

def splitRest (rg_set : Option (List (Option (List Char))))
    (default_rg : Option (List Char)) :
    List Grp → List Grp × Option SpErr
  | [] => ([], none)
  | (rg, reads) :: rest =>
    let rg1 := pyOrRg rg default_rg
    if rgSetTruthy rg_set ∧ rg1 ∉ (rg_set.getD []) then
      ([], some .nameErrFormatParseError)
    else
      let res := splitRest rg_set default_rg rest
      ((rg1, reads) :: res.1, res.2)

/-- `ReadSplitter.__iter__` run over the group stream produced by
`group_reads_by_qname`: the first group is drawn eagerly (`StopIteration`
means the fatal no-reads error); with a falsy declared set the set is seeded
from the first group when a header was present; with a truthy declared set
the `elif rg_id not in rg_set` test raises `NameError` because `rg_set` is
an undefined bare name. -/

def splitterIter (rg_set : Option (List (Option (List Char))))
    (default_rg : Option (List Char)) (groups : List Grp) :
    List Grp × Option SpErr :=
  match groups with
  | [] => ([], some .noReads)
  | (rg, reads) :: rest =>
    if rgSetTruthy rg_set then ([], some .nameErrRgSet)
    else
      match rg_set with
      | none =>
        let res := splitRest none default_rg rest
        ((rg, reads) :: res.1, res.2)
      | some _ =>
        let rg1 := pyOrRg rg default_rg
        let res := splitRest (some [rg1]) default_rg rest
        ((rg1, reads) :: res.1, res.2)

/-! FASTA per-record aggregations: embedding of `FastaReader.md5sums` and
`FastaReader.describe_records` for a single record.  A record is a header
plus the raw content lines grouped for it; each content line passes through
`FastaReader._parse_sequence_line` (`strip()` then `replace(' ', '')`).  The
digest is opaque: it is modelled as an arbitrary function applied to the
concatenation of all bytes fed to `update`, i.e. the concatenation of the
uppercased parsed lines. -/

/-- `FastaReader._parse_sequence_line`: strip surrounding whitespace, then
remove all space characters. -/

def parse_sequence_line (raw : List Char) : List Char :=
  (pyStrip raw).filter (fun c => ¬ c = ' ')

/-- The per-record body of `FastaReader.md5sums`: `None` is yielded exactly
when the content iterator yielded no line at all (the `seqline` sentinel is
still `None`); otherwise the digest of all uppercased parsed lines in
order. -/

def md5sumsRecord (digest : List Char → List Char) (header : List Char)
    (rawLines : List (List Char)) : List Char × Option (List Char) :=
  let lines := rawLines.map parse_sequence_line
  match lines with
  | [] => (header, none)
  | _ :: _ => (header, some (digest ((lines.map pyUpperStr).flatten)))

/-- The per-record body of `FastaReader.describe_records`: the total parsed
length is accumulated and `None` is yielded exactly when it is zero. -/

def describeRecord (digest : List Char → List Char) (header : List Char)
    (rawLines : List (List Char)) : List Char × Nat × Option (List Char) :=
  let lines := rawLines.map parse_sequence_line
  let seqlen := (lines.map List.length).sum
  if seqlen = 0 then (header, seqlen, none)
  else (header, seqlen, some (digest ((lines.map pyUpperStr).flatten)))

/-! Title parsing: embedding of `SeqReadFacade._parse_identifier`, which is
`self.full_title.split(None, 1)` followed by `(parts[0], '')` for a single
part and `(parts[0], parts[1])` for two.  Because `full_title` can be a
`str` or a `bytes`, values are modelled as a sum; note that the `''` literal
returned in the single-part branch is a `str` in both cases, and that
`parts[0]` raises `IndexError` when the split of an empty or all-whitespace
title produces no parts. -/

/-- A Python value that is either a text string or a byte string. -/

inductive PyV where
  | str : List Char → PyV
  | bytes : List Nat → PyV
deriving DecidableEq, Repr

/-- ASCII whitespace bytes, as used by `bytes.split(None)`. -/

def isPySpaceByte (b : Nat) : Bool :=
  b = 32 ∨ b = 9 ∨ b = 10 ∨ b = 11 ∨ b = 12 ∨ b = 13

/-- Python `s.split(None, 1)`: strip leading whitespace; an empty remainder
gives no parts; otherwise the first token runs to the next whitespace run,
which is consumed entirely before the (possibly empty) remainder. -/

def splitNone1 {α : Type} (isSp : α → Bool) (l : List α) : List (List α) :=
  let l1 := l.dropWhile isSp
  if l1.isEmpty then []
  else
    let tok := l1.takeWhile (fun c => ! isSp c)
    let rest := (l1.dropWhile (fun c => ! isSp c)).dropWhile isSp
    if rest.isEmpty then [tok] else [tok, rest]

/-- `SeqReadFacade._parse_identifier`; the error case is the `IndexError`
raised by `parts[0]` on an empty split result. -/

def parse_identifier : PyV → Except Unit (PyV × PyV)
  | .str v =>
    match splitNone1 isPySpace v with
    | [] => .error ()
    | [t] => .ok (.str t, .str [])
    | t :: r :: _ => .ok (.str t, .str r)
  | .bytes v =>
    match splitNone1 isPySpaceByte v with
    | [] => .error ()
    | [t] => .ok (.bytes t, .str [])
    | t :: r :: _ => .ok (.bytes t, .bytes r)

theorem lookup_eq_none_of_forall_ne (l : List (Char × Char)) (c : Char)
    (h : ∀ p ∈ l, c ≠ p.1) : l.lookup c = none := by
  induction l with
  | nil => rfl
  | cons p rest ih =>
    obtain ⟨a, b⟩ := p
    have hne : c ≠ a := h (a, b) (List.mem_cons_self (a, b) rest)
    have hbeq : (c == a) = false := beq_eq_false_iff_ne.mpr hne
    simp only [List.lookup, hbeq]
    exact ih (fun q hq => h q (List.mem_cons_of_mem _ hq))

theorem translateChar_unmapped (table : List (Char × Char)) (c : Char)
    (h : ∀ p ∈ table, c ≠ p.1) : translateChar table c = c := by
  unfold translateChar
  rw [lookup_eq_none_of_forall_ne table c h]

theorem dna_translateChar_involutive_mapped :
    ∀ c ∈ dnaAlphabet,
      translateChar DNA_TRANSLATION_TABLE (translateChar DNA_TRANSLATION_TABLE c) = c := by
  decide

theorem rna_translateChar_involutive_mapped :
    ∀ c ∈ rnaAlphabet,
      translateChar RNA_TRANSLATION_TABLE (translateChar RNA_TRANSLATION_TABLE c) = c := by
  decide

theorem dna_keys_eq : DNA_TRANSLATION_TABLE.map Prod.fst = dnaAlphabet := by
  decide

theorem rna_keys_eq : RNA_TRANSLATION_TABLE.map Prod.fst = rnaAlphabet := by
  decide

theorem dna_translateChar_involutive (c : Char) :
    translateChar DNA_TRANSLATION_TABLE (translateChar DNA_TRANSLATION_TABLE c) = c := by
  by_cases h : c ∈ dnaAlphabet
  · exact dna_translateChar_involutive_mapped c h
  · have hforall : ∀ p ∈ DNA_TRANSLATION_TABLE, c ≠ p.1 := by
      intro p hp hc
      apply h
      rw [← dna_keys_eq]
      exact hc ▸ List.mem_map_of_mem Prod.fst hp
    rw [translateChar_unmapped _ _ hforall, translateChar_unmapped _ _ hforall]

theorem rna_translateChar_involutive (c : Char) :
    translateChar RNA_TRANSLATION_TABLE (translateChar RNA_TRANSLATION_TABLE c) = c := by
  by_cases h : c ∈ rnaAlphabet
  · exact rna_translateChar_involutive_mapped c h
  · have hforall : ∀ p ∈ RNA_TRANSLATION_TABLE, c ≠ p.1 := by
      intro p hp hc
      apply h
      rw [← rna_keys_eq]
      exact hc ▸ List.mem_map_of_mem Prod.fst hp
    rw [translateChar_unmapped _ _ hforall, translateChar_unmapped _ _ hforall]

theorem map_involutive_self (f : Char → Char) (hf : ∀ c, f (f c) = c)
    (s : List Char) : (s.map f).map f = s := by
  induction s with
  | nil => rfl
  | cons c rest ih => simp only [List.map_cons, hf, ih]

theorem complement_complement (s : List Char) (is_dna : Bool) :
    complement (complement s is_dna) is_dna = s := by
  cases is_dna
  · exact map_involutive_self _ rna_translateChar_involutive s
  · exact map_involutive_self _ dna_translateChar_involutive s

/-- A blank (whitespace-only, non-empty) line sitting in the title position
makes the outer loop `continue` forever without consuming input. -/
theorem fqLoop_spin_on_blank_title (fuel : Nat) (title : List Char)
    (rest : List (List Char)) (acc : List FqRec) (t0 : Char) (ttail : List Char)
    (htitle : title = t0 :: ttail) (hat : t0 ≠ '@') (hblank : pyRstrip title = []) :
    fqLoop fuel title rest acc = .spin := by
  induction fuel with
  | zero => rfl
  | succ n ih =>
    subst htitle
    simp only [fqLoop, if_neg hat, hblank, if_pos rfl]
    exact ih

/-- C1 counterexample: parsing the stream whose quality line is `"!!!"`
(length 3) raises the incomplete-record error, not the length-mismatch
error the claim names: with quality still shorter than the sequence, the
quality loop draws another line and hits end of input. -/
theorem C1_counterexample :
    read_fastq_records 16 fqShortQualInput = .err .incomplete []
      ∧ FqError.incomplete ≠ FqError.lengthMismatch := by
  constructor
  · rfl
  · decide

/-- C1 (amended): parsing the line stream `"@r1", "ACGT", "+", "!!!!"` yields
exactly one record `("r1", "ACGT", "!!!!")`; with the quality line replaced by
`"!!!"` (length 3) parsing fails, but with the incomplete-record error
(premature end of input during quality accumulation), not a length-mismatch
error. -/
theorem C1_fastq_parse :
    read_fastq_records 16 fqGoodInput
        = .done [(['r', '1'], ['A', 'C', 'G', 'T'], ['!', '!', '!', '!'])]
      ∧ read_fastq_records 16 fqShortQualInput = .err .incomplete [] := by
  constructor <;> rfl

/-- C4: on a finite stream with a blank line between records the parser never
terminates: after the first record the blank line is held as the title, the
blank-title branch executes `continue` without drawing a new line, and the
loop re-tests the same line forever.  No fuel bound suffices, i.e. the code
diverges instead of skipping blank lines as its own docstring promises. -/
theorem C4_blank_line_spins (fuel : Nat) :
    read_fastq_records fuel fqBlankBetweenInput = .spin := by
  match fuel with
  | 0 => rfl
  | fuel + 1 =>
    exact fqLoop_spin_on_blank_title fuel [' ']
      [['@', 'r', '2'], ['A', 'C'], ['+'], ['!', '!']]
      [(['r', '1'], ['A', 'C', 'G', 'T'], ['!', '!', '!', '!'])]
      ' ' [] rfl (by decide) (by decide)

/-- C3: the tuple-backed variant satisfies the reverse-then-complement
composition for every read, but `PysamRead.reverse_complement` does not: on
the read with sequence `"AC"` and quality `"!#"` it produces sequence `"TG"`
(the complement of the unreversed sequence), whereas `reverse()` followed by
`complement()` produces `"GT"`; the quality is reversed in both cases. -/
theorem C3_reverse_complement :
    (∀ (is_dna : Bool) (r : SRead),
      simpleReverseComplement is_dna r
        = facadeReverseComplement simpleReverse (simpleComplement is_dna) r)
      ∧ pysamReverseComplement true ⟨['r'], ['A', 'C'], ['!', '#']⟩
          = ⟨['r'], ['T', 'G'], ['#', '!']⟩
      ∧ facadeReverseComplement pysamReverse (pysamComplement true)
            ⟨['r'], ['A', 'C'], ['!', '#']⟩
          = ⟨['r'], ['G', 'T'], ['#', '!']⟩
      ∧ pysamReverseComplement true ⟨['r'], ['A', 'C'], ['!', '#']⟩
          ≠ facadeReverseComplement pysamReverse (pysamComplement true)
              ⟨['r'], ['A', 'C'], ['!', '#']⟩ := by
  refine ⟨fun is_dna r => ?_, by decide, by decide, by decide⟩
  cases is_dna <;>
    simp [simpleReverseComplement, facadeReverseComplement, simpleReverse,
      simpleComplement, reverse_complement, complement]

theorem collectGroup_size (rg : Option (List Char)) (rid : List Char)
    (l : List GRead) :
    (collectGroup rg rid l).2.2.length
        + (if (collectGroup rg rid l).2.1.isSome then 1 else 0)
      ≤ l.length := by
  induction l with
  | nil => simp [collectGroup]
  | cons r rest ih =>
    simp only [collectGroup]
    by_cases h1 : rid ≠ r.identifier
    · simp [h1]
    · simp only [if_neg h1]
      by_cases h2 : rg ≠ r.rg_id
      · simp [h2]
      · simp only [if_neg h2]
        by_cases h3 : r.flag &&& 0x900 ≠ 0
        · simp only [if_pos h3, List.length_cons]
          omega
        · simp only [if_neg h3, List.length_cons]
          omega

theorem collectGroup_mem_flag (rg : Option (List Char)) (rid : List Char)
    (l : List GRead) :
    ∀ r ∈ (collectGroup rg rid l).1, r.flag &&& 0x900 = 0 := by
  induction l with
  | nil => intro r hr; simp [collectGroup] at hr
  | cons r0 rest ih =>
    intro r hr
    simp only [collectGroup] at hr
    by_cases h1 : rid ≠ r0.identifier
    · simp [h1] at hr
    · simp only [if_neg h1] at hr
      by_cases h2 : rg ≠ r0.rg_id
      · simp [h2] at hr
      · simp only [if_neg h2] at hr
        by_cases h3 : r0.flag &&& 0x900 ≠ 0
        · exact ih r (by simpa [h3] using hr)
        · simp only [if_neg h3, List.mem_cons] at hr
          rcases hr with rfl | hr
          · omega
          · exact ih r hr

theorem groupLoop_eq_some (r1 : GRead) (rest : List GRead) :
    groupLoop (some r1) rest =
      if r1.seq.isNone then ([], some .typeError)
      else if (r1.seq.getD []).length = 0 then ([], none)
      else if r1.flag &&& 0x900 ≠ 0 then
        groupLoop rest.head? rest.tail
      else
        let c := collectGroup r1.rg_id r1.identifier rest
        let res := groupLoop c.2.1 c.2.2
        ((r1.rg_id, r1 :: c.1) :: res.1, res.2) := by
  rw [groupLoop]

theorem groupLoop_flag (o : Option GRead) (rest : List GRead) :
    ∀ g ∈ (groupLoop o rest).1, ∀ r ∈ g.2, r.flag &&& 0x900 = 0 := by
  induction o, rest using groupLoop.induct with
  | case1 x => intro g hg; simp [groupLoop] at hg
  | case2 r1 rest hseq =>
    intro g hg
    simp [groupLoop, hseq] at hg
  | case3 r1 rest h1 h0 =>
    intro g hg
    simp [groupLoop, h1, h0] at hg
  | case4 r1 rest h1 h0 hf ih =>
    intro g hg
    rw [groupLoop_eq_some, if_neg h1, if_neg h0, if_pos hf] at hg
    exact ih g hg
  | case5 r1 rest h1 h0 hf c ih =>
    intro g hg
    rw [groupLoop_eq_some, if_neg h1, if_neg h0, if_neg hf] at hg
    simp only [List.mem_cons] at hg
    rcases hg with rfl | hg
    · intro r hr
      simp only [List.mem_cons] at hr
      rcases hr with rfl | hr
      · exact of_not_not hf
      · exact collectGroup_mem_flag r1.rg_id r1.identifier rest r hr
    · exact ih g hg

theorem groupLoop_all_secondary (o : Option GRead) (rest : List GRead) :
    (∀ r, o = some r → r.flag &&& 0x900 ≠ 0) →
    (∀ r ∈ rest, r.flag &&& 0x900 ≠ 0) →
    (groupLoop o rest).1 = [] := by
  induction o, rest using groupLoop.induct with
  | case1 x => intro _ _; simp [groupLoop]
  | case2 r1 rest hseq => intro _ _; simp [groupLoop, hseq]
  | case3 r1 rest h1 h0 => intro _ _; simp [groupLoop, h1, h0]
  | case4 r1 rest h1 h0 hf ih =>
    intro ho hrest
    rw [groupLoop_eq_some, if_neg h1, if_neg h0, if_pos hf]
    exact ih (fun x hx => hrest x (List.mem_of_mem_head? hx))
      (fun x hx => hrest x (List.mem_of_mem_tail hx))
  | case5 r1 rest h1 h0 hf c ih =>
    intro ho hrest
    exact absurd (ho r1 rfl) (fun hc => hf hc)

/-- C5: on the sorted stream `[(id="a", flag=0, rg="X"),
(id="a", flag=0x100, rg="X"), (id="a", flag=0, rg="Y")]` the grouper yields
exactly `("X", [read0])` and `("Y", [read2])` in that order; in general no
read whose flag has a bit of mask 0x900 set appears in any emitted group, and
an empty or all-secondary stream yields no groups. -/
theorem C5_grouping :
    group_reads_by_qname [c5Read0, c5Read1, c5Read2]
        = ([(some ['X'], [c5Read0]), (some ['Y'], [c5Read2])], none)
      ∧ (∀ (src : List GRead) (g : Grp), g ∈ (group_reads_by_qname src).1 →
          ∀ r ∈ g.2, r.flag &&& 0x900 = 0)
      ∧ (group_reads_by_qname []).1 = []
      ∧ (∀ src : List GRead, (∀ r ∈ src, r.flag &&& 0x900 ≠ 0) →
          (group_reads_by_qname src).1 = []) := by
  refine ⟨by simp [group_reads_by_qname, groupLoop, collectGroup, c5Read0,
      c5Read1, c5Read2],
    fun src g hg r hr => ?_, rfl, fun src hsrc => ?_⟩
  · match src with
    | [] => simp [group_reads_by_qname] at hg
    | r0 :: rest =>
      exact groupLoop_flag (some r0) rest g hg r hr
  · match src with
    | [] => rfl
    | r0 :: rest =>
      exact groupLoop_all_secondary (some r0) rest
        (fun x hx => by
          cases hx
          exact hsrc r0 (List.mem_cons_self r0 rest))
        (fun x hx => hsrc x (List.mem_cons_of_mem r0 hx))

/-- C5 witness: the general conjuncts applied at concrete inputs — read0 in
the first emitted group of the example stream has no 0x900 bit, and the
stream holding one secondary read yields no groups. -/
theorem C5_grouping_witness :
    c5Read0.flag &&& 0x900 = 0
      ∧ (group_reads_by_qname [c5Read1]).1 = [] := by
  constructor
  · exact C5_grouping.2.1 [c5Read0, c5Read1, c5Read2]
      (some ['X'], [c5Read0])
      (by rw [C5_grouping.1]; exact List.mem_cons_self _ _)
      c5Read0 (List.mem_cons_self _ _)
  · exact C5_grouping.2.2.2 [c5Read1] (by
      intro r hr
      rw [List.mem_singleton] at hr
      subst hr
      decide)

/-- C10 counterexample: a stream whose first (anchor-candidate) read carries
an absent (`None`) sequence does not stop silently — the truthiness test
`while read1:` calls `len(None)` and a `TypeError` is raised, contradicting
the claim's "with no error raised". -/
theorem C10_counterexample :
    group_reads_by_qname [⟨['a'], 0, some ['X'], none⟩, c5Read2]
        = ([], some .typeError)
      ∧ (some GrpErr.typeError ≠ (none : Option GrpErr)) := by
  constructor
  · simp [group_reads_by_qname, groupLoop]
  · decide

/-- C10 (amended): when the read in anchor position has a zero-length
sequence, grouping stops at that read with nothing further emitted and no
error; when the sequence is absent (`None`), grouping likewise emits nothing
further, but raises a `TypeError` from `len(None)` in the truthiness test
rather than stopping silently. -/
theorem C10_truthiness_stop (r : GRead) (rest : List GRead) :
    (r.seq = some [] → groupLoop (some r) rest = ([], none))
      ∧ (r.seq = none → groupLoop (some r) rest = ([], some .typeError)) := by
  constructor
  · intro h
    simp [groupLoop, h]
  · intro h
    simp [groupLoop, h]

/-- C10 witness: the amended theorem applied to a concrete empty-sequence
read and a concrete absent-sequence read, each followed by a further read
that is then never emitted. -/
theorem C10_truthiness_stop_witness :
    groupLoop (some ⟨['a'], 0, some ['X'], some []⟩) [c5Read2] = ([], none)
      ∧ groupLoop (some ⟨['a'], 0, some ['X'], none⟩) [c5Read2]
          = ([], some .typeError) :=
  ⟨(C10_truthiness_stop ⟨['a'], 0, some ['X'], some []⟩ [c5Read2]).1 rfl,
   (C10_truthiness_stop ⟨['a'], 0, some ['X'], none⟩ [c5Read2]).2 rfl⟩

/-- C7: an entirely empty read stream yields no groups from the grouper, so
the splitter's first `next(it)` raises `StopIteration` and the
`RuntimeError('No reads in file. Aborting.')` is raised on the first
iteration step, whatever the declared read-group set and default are; no
group is ever yielded. -/
theorem C7_empty_input_fatal (rg_set : Option (List (Option (List Char))))
    (default_rg : Option (List Char)) :
    splitterIter rg_set default_rg (group_reads_by_qname []).1
      = ([], some .noReads) := rfl

/-- C6: with read groups `{"A","B"}` declared in the header, iteration
fails on the FIRST group regardless of its read-group id — including the
claim's group resolving to `"C"` — because evaluating the membership test
`elif rg_id not in rg_set:` raises `NameError` (the bare name `rg_set` is
undefined in the method); no group-validation error carrying the offending
token is ever produced.  Moreover the later-group validation paths raise
`NameError` as well, since `FormatParseError` is undefined in the module:
shown here for a seeded singleton set meeting an unknown later group. -/
theorem C6_splitter_name_errors :
    splitterIter (some [some ['A'], some ['B']]) none
        [(some ['C'], [c5Read0])]
      = ([], some .nameErrRgSet)
      ∧ splitterIter (some [some ['A'], some ['B']]) none
          [(some ['A'], [c5Read0])]
        = ([], some .nameErrRgSet)
      ∧ splitRest (some [some ['X']]) none [(some ['C'], [c5Read2])]
        = ([], some .nameErrFormatParseError) := by
  refine ⟨rfl, rfl, ?_⟩
  simp [splitRest, pyOrRg, rgSetTruthy]

theorem pyUpperStr_join (l : List (List Char)) :
    pyUpperStr l.flatten = (l.map pyUpperStr).flatten := by
  induction l with
  | nil => rfl
  | cons x rest ih =>
    simp only [List.flatten_cons, List.map_cons, pyUpperStr,
      List.map_append] at ih ⊢
    rw [ih]

/-- C8 counterexample: for the record whose single content line is `" "`
(parsing to the empty line), the concatenated sequence is empty, yet
`md5sums` yields a digest — of the empty string — instead of `None`, and
`describe_records` yields `None`; so "None exactly when the concatenated
sequence is empty" fails and the two aggregations disagree on the same
record. -/
theorem C8_counterexample :
    md5sumsRecord (fun l => l) ['h'] [[' ']] = (['h'], some [])
      ∧ describeRecord (fun l => l) ['h'] [[' ']] = (['h'], 0, none)
      ∧ (md5sumsRecord (fun l => l) ['h'] [[' ']]).2
          ≠ (describeRecord (fun l => l) ['h'] [[' ']]).2.2 := by
  refine ⟨rfl, rfl, ?_⟩
  decide

/-- C8 (amended): `md5sums()` yields `(header, None)` exactly when the
record has no content lines at all, and otherwise the digest of the
uppercased concatenated parsed sequence (possibly the digest of the empty
string); `describe_records()` yields the total length and `None` exactly
when that length is zero; the two agree on every record that either has no
content lines or a non-empty concatenated sequence. -/
theorem C8_md5sums_describe (digest : List Char → List Char)
    (header : List Char) (rawLines : List (List Char)) :
    ((md5sumsRecord digest header rawLines).2 = none ↔ rawLines = [])
      ∧ (rawLines ≠ [] →
          (md5sumsRecord digest header rawLines).2
            = some (digest (pyUpperStr (rawLines.map parse_sequence_line).flatten)))
      ∧ (describeRecord digest header rawLines).2.1
          = ((rawLines.map parse_sequence_line).map List.length).sum
      ∧ ((describeRecord digest header rawLines).2.2 = none ↔
          ((rawLines.map parse_sequence_line).map List.length).sum = 0)
      ∧ (rawLines = []
            ∨ ((rawLines.map parse_sequence_line).map List.length).sum ≠ 0 →
          (md5sumsRecord digest header rawLines).2
            = (describeRecord digest header rawLines).2.2) := by
  match rawLines with
  | [] =>
    refine ⟨by simp [md5sumsRecord], by simp, by simp [describeRecord],
      by simp [describeRecord], fun _ => by simp [md5sumsRecord, describeRecord]⟩
  | raw :: raws =>
    have hne : raw :: raws ≠ ([] : List (List Char)) := by simp
    refine ⟨by simp [md5sumsRecord], fun _ => ?_, ?_, ?_, fun hor => ?_⟩
    · simp only [md5sumsRecord, List.map_cons, pyUpperStr_join]
    · simp only [describeRecord]
      split <;> rfl
    · simp only [describeRecord]
      split <;> simp_all
    · rcases hor with h | h
      · exact absurd h hne
      · simp only [md5sumsRecord, describeRecord, List.map_cons]
        rw [if_neg (by simpa using h)]

/-- C8 witness: the amended theorem applied to the one-line record `"ac"`:
`md5sums` yields the digest of the uppercased line and agrees with
`describe_records`. -/
theorem C8_md5sums_describe_witness :
    (md5sumsRecord (fun l => l) ['h'] [['a', 'c']]).2 = some ['A', 'C']
      ∧ (md5sumsRecord (fun l => l) ['h'] [['a', 'c']]).2
          = (describeRecord (fun l => l) ['h'] [['a', 'c']]).2.2 := by
  constructor
  · have h := (C8_md5sums_describe (fun l => l) ['h'] [['a', 'c']]).2.1
      (by decide)
    rw [h]
    rfl
  · exact (C8_md5sums_describe (fun l => l) ['h'] [['a', 'c']]).2.2.2.2
      (Or.inr (by decide))

theorem dropWhile_false {α : Type} (p : α → Bool) (l : List α)
    (h : ∀ c ∈ l, p c = false) : l.dropWhile p = l := by
  cases l with
  | nil => rfl
  | cons c rest =>
    rw [List.dropWhile_cons_of_neg]
    simp [h c (List.mem_cons_self c rest)]

theorem takeWhile_neg_all {α : Type} (p : α → Bool) (l : List α)
    (h : ∀ c ∈ l, p c = false) : l.takeWhile (fun c => ! p c) = l := by
  induction l with
  | nil => rfl
  | cons c rest ih =>
    rw [List.takeWhile_cons_of_pos]
    · rw [ih (fun x hx => h x (List.mem_cons_of_mem c hx))]
    · simp [h c (List.mem_cons_self c rest)]

theorem dropWhile_neg_all {α : Type} (p : α → Bool) (l : List α)
    (h : ∀ c ∈ l, p c = false) : l.dropWhile (fun c => ! p c) = [] := by
  induction l with
  | nil => rfl
  | cons c rest ih =>
    rw [List.dropWhile_cons_of_pos]
    · exact ih (fun x hx => h x (List.mem_cons_of_mem c hx))
    · simp [h c (List.mem_cons_self c rest)]

theorem splitNone1_no_space {α : Type} (isSp : α → Bool) (l : List α)
    (hne : l ≠ []) (h : ∀ c ∈ l, isSp c = false) :
    splitNone1 isSp l = [l] := by
  unfold splitNone1
  simp only [dropWhile_false isSp l h, takeWhile_neg_all isSp l h,
    dropWhile_neg_all isSp l h, List.dropWhile_nil, List.isEmpty_nil,
    if_true]
  rw [if_neg (by simpa using hne)]

/-- C9 counterexample: for the whitespace-free bytes title `b"r"` the
description is the `str` value `''` (the hard-coded literal in
`_parse_identifier`), not the empty bytes the claim requires; and for the
empty title (which also contains no whitespace) the split yields no parts
and `parts[0]` raises `IndexError` instead of returning the whole title. -/
theorem C9_counterexample :
    parse_identifier (.bytes [114]) = .ok (.bytes [114], .str [])
      ∧ PyV.str [] ≠ PyV.bytes []
      ∧ parse_identifier (.str []) = .error () := by
  refine ⟨rfl, ?_, rfl⟩
  intro h
  cases h

/-- C9 (amended): identifier and description are obtained by splitting
`full_title` on the first run of whitespace; when `full_title` is non-empty
and contains no whitespace, the identifier is the whole title and the
description is the `str` literal `''` regardless of the title's type (for a
bytes title it is NOT the empty bytes); an empty title raises `IndexError`
instead. -/
theorem C9_parse_identifier (s : List Char) (b : List Nat) :
    (s ≠ [] → (∀ c ∈ s, isPySpace c = false) →
      parse_identifier (.str s) = .ok (.str s, .str []))
      ∧ (b ≠ [] → (∀ x ∈ b, isPySpaceByte x = false) →
        parse_identifier (.bytes b) = .ok (.bytes b, .str []))
      ∧ parse_identifier (.str []) = .error () := by
  refine ⟨fun hne h => ?_, fun hne h => ?_, rfl⟩
  · simp [parse_identifier, splitNone1_no_space isPySpace s hne h]
  · simp [parse_identifier, splitNone1_no_space isPySpaceByte b hne h]

/-- C9 witness: the amended theorem applied to the text title `"r1"` and the
bytes title `b"r"`, both non-empty and whitespace-free. -/
theorem C9_parse_identifier_witness :
    parse_identifier (.str ['r', '1']) = .ok (.str ['r', '1'], .str [])
      ∧ parse_identifier (.bytes [114]) = .ok (.bytes [114], .str []) :=
  ⟨(C9_parse_identifier ['r', '1'] [114]).1 (by decide) (by decide),
   (C9_parse_identifier ['r', '1'] [114]).2.1 (by decide) (by decide)⟩

/-- C2: double complement is the identity on every DNA sequence over the
IUPAC alphabet in either case, and likewise with the RNA table; `N` is its
own complement, and any character outside a table's domain passes through
`complement` unchanged, so unmapped symbols round-trip exactly. -/
theorem C2_complement_involution :
    (∀ s : List Char, (∀ c ∈ s, c ∈ dnaAlphabet) →
        complement (complement s true) true = s)
      ∧ (∀ s : List Char, (∀ c ∈ s, c ∈ rnaAlphabet) →
        complement (complement s false) false = s)
      ∧ translateChar DNA_TRANSLATION_TABLE 'N' = 'N'
      ∧ translateChar RNA_TRANSLATION_TABLE 'N' = 'N'
      ∧ (∀ c : Char, (∀ p ∈ DNA_TRANSLATION_TABLE, c ≠ p.1) →
          complement [c] true = [c]) := by
  refine ⟨fun s _ => complement_complement s true,
    fun s _ => complement_complement s false, by decide, by decide,
    fun c h => ?_⟩
  simp [complement, translateChar_unmapped DNA_TRANSLATION_TABLE c h]

/-- C2 witness: the involution applied to the mixed-case DNA sequence
`"AcgTN"` and the RNA sequence `"uN"`, and pass-through of the unmapped
symbol `-`. -/
theorem C2_complement_involution_witness :
    complement (complement ['A', 'c', 'g', 'T', 'N'] true) true
        = ['A', 'c', 'g', 'T', 'N']
      ∧ complement (complement ['u', 'N'] false) false = ['u', 'N']
      ∧ complement ['-'] true = ['-'] :=
  ⟨C2_complement_involution.1 ['A', 'c', 'g', 'T', 'N'] (by decide),
   C2_complement_involution.2.1 ['u', 'N'] (by decide),
   C2_complement_involution.2.2.2.2 '-' (by decide)⟩

end Mimodd
